import Mathlib

/-!
Verification of the Alili yoga-assistant frontend (and the spec-modelled
parts of its backend planner and geometry kernel) against its
natural-language specification.

The definitions below are shallow embeddings of the TypeScript sources
under `frontend/src` (pose-orientation gating, skeleton overlay, scoring
hooks, voice feedback, body-part selection, score classification).  The
backend Python modules (`geometry.py`, `session_generator.py`) are not in
the repository snapshot, so those components are modelled from the spec's
words where needed; the model points are marked in their doc comments.

JavaScript numeric conventions are made explicit: `Math.round x` is
`⌊x + 1/2⌋`, and a `null` confidence compared with `>=` coerces to `0`.
-/

namespace Alili

/-- Camera-relative body orientation, from `types/pose.ts`:
`'front' | 'side_left' | 'side_right' | 'supine'`. -/
inductive Orientation where
  | front
  | side_left
  | side_right
  | supine
deriving DecidableEq, Repr

open Orientation

/-- The frontend table from `poseOrientations.ts`: required camera
orientations for each pose, in source order. -/
def POSE_ORIENTATIONS : List (String × List Orientation) :=
  [ ("Downward Dog", [side_left, side_right]),
    ("Plank", [side_left, side_right]),
    ("Reverse Table Top", [side_left, side_right]),
    ("Mountain Pose", [front]),
    ("Warrior II Left", [front]),
    ("Warrior II Right", [front]),
    ("Tree Pose Left", [front]),
    ("Tree Pose Right", [front]),
    ("Easy Seat", [front]),
    ("Seated Hands Behind Back Stretch", [front]),
    ("Gomukasana Legs Fold", [front]),
    ("Supine Bound Angle", [front, supine]),
    ("Hug the Knees", [front, supine]),
    ("Supine Bent Knees", [front, supine]),
    ("Janu Sirsasana Twist Left", [front, side_left, side_right]),
    ("Janu Sirsasana Twist Right", [front, side_left, side_right]),
    ("Janu Sirsasana Revolved Left", [front, side_left, side_right]),
    ("Janu Sirsasana Revolved Right", [front, side_left, side_right]) ]

/-- Table lookup, mirroring the record access `POSE_ORIENTATIONS[poseName]`
(absent key gives `none`, the embedding of `undefined`). -/
def lookupOrientations (poseName : String) : Option (List Orientation) :=
  POSE_ORIENTATIONS.lookup poseName

/-- The function `isOrientationValid` from `poseOrientations.ts`:
`if (!required) return true; return required.includes(currentOrientation)`. -/
def isOrientationValid (poseName : String) (currentOrientation : Orientation) : Bool :=
  match lookupOrientations poseName with
  | none => true
  | some required => required.contains currentOrientation

/-- JavaScript `Math.round` on (finite) rationals: round half towards
positive infinity, `⌊x + 1/2⌋`. -/
def jsRound (x : ℚ) : ℤ := ⌊x + 1 / 2⌋

/-- A label/class pair as returned by the score-classification helpers
(`ScoreLabel` in `utils/scoreClassification.ts`). -/
structure ScoreLabel where
  label : String
  className : String
deriving DecidableEq, Repr

/-- The function `getScoreLabel` from `utils/scoreClassification.ts`: thresholds on the
already-rounded 0–5 score. -/
def getScoreLabel (score : ℤ) : ScoreLabel :=
  if score ≥ 4 then ⟨"Excellent", "excellent"⟩
  else if score ≥ 3 then ⟨"Good", "good"⟩
  else if score ≥ 2 then ⟨"Fair", "fair"⟩
  else ⟨"Needs Work", "needs-work"⟩

/-- The inline `getScoreLabel` in `App.tsx`: rounds `score * 5` itself and
then applies the same thresholds, with the literals written out inline. -/
def appGetScoreLabel (score : ℚ) : ScoreLabel :=
  let rounded := jsRound (score * 5)
  if rounded ≥ 4 then ⟨"Excellent", "excellent"⟩
  else if rounded ≥ 3 then ⟨"Good", "good"⟩
  else if rounded ≥ 2 then ⟨"Fair", "fair"⟩
  else ⟨"Needs Work", "needs-work"⟩

/-- The function `getScoreLabelForDisplay` from `SessionComplete.tsx`: rounds `score * 5`
and delegates to `getScoreLabel`. -/
def getScoreLabelForDisplay (score : ℚ) : ScoreLabel :=
  getScoreLabel (jsRound (score * 5))

/-- A pose-detection result as seen by the active-session views: the
`confidence` field of `PoseDetectionResult` (`types/pose.ts`) is
`number | null`. -/
structure PoseResult where
  confidence : Option ℚ
  feedback : List String
deriving Repr

/-- The accuracy computation of `ActiveSessionDesktop.tsx` (the mobile view
is verbatim identical): `poseResult?.confidence !== null && !== undefined ?
Math.round(poseResult.confidence * 5) : null`. -/
def computeAccuracy (poseResult : Option PoseResult) : Option ℤ :=
  match poseResult with
  | none => none
  | some r =>
    match r.confidence with
    | none => none
    | some c => some (jsRound (c * 5))

/-- The function `getMobileLabel` from the accuracy variant of `PoseFeedback.tsx`. -/
def getMobileLabel (score : ℤ) : String :=
  if score ≥ 4 then "GREAT"
  else if score ≥ 2 then "KEEP GOING"
  else "ADJUST"

/-- Text of the mobile status bar in `PoseFeedback.tsx`:
`accuracy !== null ? getMobileLabel(accuracy) : 'DETECTING...'`. -/
def mobileStatusText (accuracy : Option ℤ) : String :=
  match accuracy with
  | some a => getMobileLabel a
  | none => "DETECTING..."

/-- Whether the desktop numeric score badge is rendered in
`PoseFeedback.tsx`: guarded by `accuracy !== null`. -/
def scoreBadgeRendered (accuracy : Option ℤ) : Bool :=
  accuracy.isSome

/-- The per-pose average shown by `SessionConfig.tsx`:
`Math.floor(durationMinutes * 60 / preview.estimated_poses)`.  A zero
divisor in JavaScript yields `Infinity`, which is not a finite integer;
the embedding returns `none` in that case. -/
def perPoseAvg (durationMinutes estimatedPoses : ℕ) : Option ℤ :=
  if estimatedPoses = 0 then none
  else some ⌊(durationMinutes * 60 : ℚ) / estimatedPoses⌋

/-- The two selection sets held by `BodyPartSelector.tsx` (`painAreas` and
`improvementAreas`, both JavaScript `Set<string>`). -/
structure SelectorState where
  painAreas : Finset String
  improvementAreas : Finset String
deriving DecidableEq

/-- The initial selector state: both sets empty (`new Set()`). -/
def initialSelector : SelectorState := ⟨∅, ∅⟩

/-- The handler `togglePain` from `BodyPartSelector.tsx`: deselect if already a pain
area, otherwise select it and remove it from the improvement areas. -/
def togglePain (part : String) (s : SelectorState) : SelectorState :=
  if part ∈ s.painAreas then
    { s with painAreas := s.painAreas.erase part }
  else
    { painAreas := insert part s.painAreas,
      improvementAreas := s.improvementAreas.erase part }

/-- The handler `toggleImprovement` from `BodyPartSelector.tsx`: deselect if already an
improvement area, otherwise select it and remove it from the pain areas. -/
def toggleImprovement (part : String) (s : SelectorState) : SelectorState :=
  if part ∈ s.improvementAreas then
    { s with improvementAreas := s.improvementAreas.erase part }
  else
    { painAreas := s.painAreas.erase part,
      improvementAreas := insert part s.improvementAreas }

/-- A click in the body-part selector: either column, any body part. -/
inductive SelectorOp where
  | pain (part : String)
  | improvement (part : String)
deriving DecidableEq, Repr

/-- Apply a sequence of selector clicks in order. -/
def applySelectorOps : List SelectorOp → SelectorState → SelectorState
  | [], s => s
  | SelectorOp.pain p :: ops, s => applySelectorOps ops (togglePain p s)
  | SelectorOp.improvement p :: ops, s => applySelectorOps ops (toggleImprovement p s)

/-- A recorded per-pose score from `usePoseScoring.ts`: pose name, the raw
confidence samples, and their average. -/
structure PoseScoreRecord where
  poseName : String
  scores : List ℚ
  averageScore : ℚ
deriving DecidableEq, Repr

/-- The function `savePoseScore` from `usePoseScoring.ts`: when at least one confidence
sample was accumulated for the current pose, append a record carrying a
copy of the samples and their arithmetic mean and return the updated list;
otherwise return the stored list unchanged. -/
def savePoseScore (poseName : String) (currentScores : List ℚ)
    (poseScores : List PoseScoreRecord) : List PoseScoreRecord :=
  if currentScores.length > 0 then
    poseScores ++
      [{ poseName := poseName,
         scores := currentScores,
         averageScore := currentScores.sum / currentScores.length }]
  else
    poseScores

/-- A detector landmark (`types/pose.ts`): normalized coordinates plus a
visibility confidence. -/
structure Landmark where
  x : ℚ
  y : ℚ
  z : ℚ
  visibility : ℚ
deriving DecidableEq, Repr

/-- The table `POSE_CONNECTIONS` from `PoseOverlay.tsx`: the MediaPipe skeleton edges
as pairs of landmark indices, in source order. -/
def POSE_CONNECTIONS : List (ℕ × ℕ) :=
  [ (0, 1), (1, 2), (2, 3), (3, 7), (0, 4), (4, 5), (5, 6), (6, 8),
    (9, 10),
    (11, 12),
    (11, 13), (13, 15), (15, 17), (15, 19), (15, 21), (17, 19),
    (12, 14), (14, 16), (16, 18), (16, 20), (16, 22), (18, 20),
    (11, 23), (12, 24), (23, 24),
    (23, 25), (25, 27), (27, 29), (27, 31), (29, 31),
    (24, 26), (26, 28), (28, 30), (28, 32), (30, 32) ]

/-- One connection of the overlay draw loop in `PoseOverlay.tsx`:
`if (start >= landmarks.length || end >= landmarks.length) return;` then
draw the segment only when both endpoints have `visibility > 0.5`.
Returns the drawn endpoint pair, or `none` when the connection is
skipped. -/
def drawConnection (landmarks : List Landmark) (c : ℕ × ℕ) :
    Option (Landmark × Landmark) :=
  if c.1 ≥ landmarks.length ∨ c.2 ≥ landmarks.length then none
  else
    match landmarks[c.1]?, landmarks[c.2]? with
    | some startLandmark, some endLandmark =>
      if startLandmark.visibility > 1 / 2 ∧ endLandmark.visibility > 1 / 2 then
        some (startLandmark, endLandmark)
      else none
    | _, _ => none

/-- All skeleton segments drawn for a landmark list. -/
def drawnConnections (landmarks : List Landmark) : List (Landmark × Landmark) :=
  POSE_CONNECTIONS.filterMap (drawConnection landmarks)

/-- The landmark dots drawn by `PoseOverlay.tsx`: every landmark with
`visibility > 0.5`. -/
def drawnPoints (landmarks : List Landmark) : List Landmark :=
  landmarks.filter (fun l => l.visibility > 1 / 2)

/-- One run of the voice-feedback effect in `useActiveSession.ts` against
the mutable `lastSpokenFeedbackRef`.  Returns the text handed to
`speechService.speakFeedback` (or `none`) together with the updated ref.
The JavaScript guard `poseResult.confidence >= 0.7` coerces a `null`
confidence to `0`, which is captured by `Option.getD · 0`; the truthiness
test `if (firstFeedback && ...)` is the non-empty-string check. -/
def voiceStep (voiceEnabled speechSupported : Bool) (r : Option PoseResult)
    (lastSpoken : String) : Option String × String :=
  if !voiceEnabled || !speechSupported then (none, lastSpoken)
  else
    match r with
    | none => (none, lastSpoken)
    | some res =>
      if res.feedback.length = 0 then (none, lastSpoken)
      else if res.confidence.getD 0 ≥ 7 / 10 then (none, lastSpoken)
      else
        match res.feedback.head? with
        | none => (none, lastSpoken)
        | some f =>
          if f ≠ "" ∧ f ≠ lastSpoken then (some f, f) else (none, lastSpoken)

/-- The sequence of texts spoken over a run of pose results, threading the
`lastSpokenFeedbackRef` state through `voiceStep`. -/
def voiceTrace (voiceEnabled speechSupported : Bool) :
    List (Option PoseResult) → String → List String
  | [], _ => []
  | r :: rs, lastSpoken =>
    match voiceStep voiceEnabled speechSupported r lastSpoken with
    | (some f, l) => f :: voiceTrace voiceEnabled speechSupported rs l
    | (none, l) => voiceTrace voiceEnabled speechSupported rs l

/-- The three sequencing categories of a pose (spec §3). -/
inductive PoseCategory where
  | warmup
  | peak
  | cooldown
deriving DecidableEq, Repr

/-- Modelled from the spec: `PoseDefinition` (spec §3); the backend pose
catalog (`body_parts.py` / `pose_recognition.py`) is not in the repository
snapshot, so a catalog entry carries the fields the Session Planner reads:
category, default duration, target body parts and the optional
left/right pair key. -/
structure PoseDefinition where
  name : String
  category : PoseCategory
  defaultDurationSec : ℕ
  targetBodyParts : List String
  asymmetricPairKey : Option String
deriving DecidableEq, Repr

/-- Modelled from the spec: Session Planner step 1 (`session_generator.py`
is not in the repository snapshot).  Candidates are the poses whose target
body parts intersect `painAreas ∪ improvementAreas`; with both sets empty
the whole catalog is used. -/
def candidateSet (catalog : List PoseDefinition)
    (painAreas improvementAreas : List String) : List PoseDefinition :=
  if (painAreas ++ improvementAreas).isEmpty then catalog
  else
    catalog.filter (fun p =>
      p.targetBodyParts.any (fun b => (painAreas ++ improvementAreas).contains b))

/-- Modelled from the spec: Session Planner step 2 (`session_generator.py`
is not in the repository snapshot).  Every selected pose with an
`asymmetricPairKey` forces its pair partner in, keeping catalog order. -/
def expandPairs (catalog cand : List PoseDefinition) : List PoseDefinition :=
  catalog.filter (fun p =>
    decide (p ∈ cand ∨
      (p.asymmetricPairKey.isSome ∧
        ∃ q ∈ cand, q.asymmetricPairKey = p.asymmetricPairKey)))

/-- Modelled from the spec: Session Planner step 3 (`session_generator.py`
is not in the repository snapshot).  The final sequence is all warmup
poses, then all peak poses, then all cooldown poses, stably. -/
def orderByCategory (poses : List PoseDefinition) : List PoseDefinition :=
  poses.filter (fun p => p.category = PoseCategory.warmup) ++
  poses.filter (fun p => p.category = PoseCategory.peak) ++
  poses.filter (fun p => p.category = PoseCategory.cooldown)

/-- Modelled from the spec: Session Planner selection, steps 1–3 and the
step-6 fallback (`session_generator.py` is not in the repository
snapshot): an empty candidate set falls back to the full catalog, so the
planner never returns an empty session. -/
def selectPoses (catalog : List PoseDefinition)
    (painAreas improvementAreas : List String) : List PoseDefinition :=
  let cand := candidateSet catalog painAreas improvementAreas
  let cand := if cand.isEmpty then catalog else expandPairs catalog cand
  orderByCategory cand

/-- Modelled from the spec: Session Planner step 5 (`session_generator.py`
is not in the repository snapshot).  Each pose starts from its catalog
`defaultDurationSec`; all durations are scaled by the single factor
`totalSec / sum(defaults)` and rounded to whole seconds. -/
def scaledDurations (defaults : List ℕ) (totalSec : ℤ) : List ℤ :=
  defaults.map (fun (d : ℕ) => round ((d : ℚ) * (totalSec : ℚ) / (defaults.sum : ℚ)))

/-- Modelled from the spec: Session Planner step 5, the drift correction
(`session_generator.py` is not in the repository snapshot).  All scaled
durations but the last are kept; the last pose absorbs the rounding
drift so the sum is exactly the requested total. -/
def allocateDurations (defaults : List ℕ) (totalSec : ℤ) : List ℤ :=
  match defaults with
  | [] => []
  | _ :: _ =>
    (scaledDurations defaults totalSec).dropLast ++
      [totalSec - (scaledDurations defaults totalSec).dropLast.sum]

/-- A pose of a generated session (spec §3 `SessionPose`). -/
structure SessionPose where
  poseName : String
  durationSec : ℤ
  isPainTarget : Bool
  isImprovementTarget : Bool
deriving DecidableEq, Repr

/-- Modelled from the spec: Session Planner step 7 (`session_generator.py`
is not in the repository snapshot): a selected pose with its allocated
duration becomes a `SessionPose`, annotated with whether its target body
parts intersect the requested pain / improvement sets. -/
def mkSessionPose (painAreas improvementAreas : List String)
    (pd : PoseDefinition × ℤ) : SessionPose :=
  { poseName := pd.1.name,
    durationSec := pd.2,
    isPainTarget := pd.1.targetBodyParts.any (fun b => painAreas.contains b),
    isImprovementTarget :=
      pd.1.targetBodyParts.any (fun b => improvementAreas.contains b) }

/-- Modelled from the spec: the Session Planner `generate` contract
(`session_generator.py` is not in the repository snapshot): select and
order the poses, allocate durations summing to
`round(durationMinutes*60)`, and annotate the pain/improvement flags. -/
def generateSession (catalog : List PoseDefinition)
    (painAreas improvementAreas : List String) (durationMinutes : ℚ) :
    List SessionPose :=
  let poses := selectPoses catalog painAreas improvementAreas
  let durations :=
    allocateDurations (poses.map (fun p => p.defaultDurationSec))
      (round (durationMinutes * 60))
  (poses.zip durations).map (mkSessionPose painAreas improvementAreas)

/-- A 2-D point: the (x, y) projection of a landmark, the coordinates the
Geometry Kernel reads (spec §4.1: z is ignored for angle stability). -/
@[ext]
structure Pt where
  x : ℝ
  y : ℝ

/-- Vector from `q` to `p` in the 2-D projection. -/
def vsub (p q : Pt) : ℝ × ℝ := (p.x - q.x, p.y - q.y)

/-- Dot product of 2-D vectors. -/
def dot (u v : ℝ × ℝ) : ℝ := u.1 * v.1 + u.2 * v.2

/-- Euclidean norm of a 2-D vector. -/
noncomputable def norm2 (u : ℝ × ℝ) : ℝ := Real.sqrt (u.1 ^ 2 + u.2 ^ 2)

open scoped Classical in
/-- Modelled from the spec: the Geometry Kernel operation `angleBetween`
(`utils/geometry.py` is not in the repository snapshot).  The angle in
degrees at vertex `b` between rays `b→a` and `b→c`, computed from the 2-D
(x, y) projection via the arc cosine of the normalized dot product;
coincident points return the `none` sentinel rather than raising. -/
noncomputable def angleBetween (a b c : Pt) : Option ℝ :=
  if a = b ∨ c = b then none
  else
    some (Real.arccos
      (dot (vsub a b) (vsub c b) / (norm2 (vsub a b) * norm2 (vsub c b)))
      * 180 / Real.pi)

/-- Uniform scaling of a point about the origin. -/
def scalePt (s : ℝ) (p : Pt) : Pt := ⟨s * p.x, s * p.y⟩

/-- Translation of a point by the offset `d`. -/
def translatePt (d p : Pt) : Pt := ⟨p.x + d.x, p.y + d.y⟩

end Alili

/-- C1: for every pose name with an entry in `POSE_ORIENTATIONS`,
`isOrientationValid` returns `true` exactly when the orientation is in that
entry (in particular it is `false` when the orientation lies outside the
pose's valid-orientation set), and for every pose name with no entry it
returns `true` for every orientation. -/
theorem isOrientationValid_spec (poseName : String) (o : Alili.Orientation) :
    (∀ required, Alili.lookupOrientations poseName = some required →
      (Alili.isOrientationValid poseName o = true ↔ o ∈ required)) ∧
    (Alili.lookupOrientations poseName = none →
      Alili.isOrientationValid poseName o = true) := by
  constructor
  · intro required hreq
    simp [Alili.isOrientationValid, hreq, List.contains, List.elem_iff]
  · intro hnone
    simp [Alili.isOrientationValid, hnone]

/-- Witness for C1: `Plank` has the entry `[side_left, side_right]`, and a
`front` orientation is rejected, while a missing pose name is always
accepted. -/
theorem isOrientationValid_spec_witness :
    Alili.isOrientationValid "Plank" Alili.Orientation.front = false := by
  have h := (isOrientationValid_spec "Plank" Alili.Orientation.front).1
    [Alili.Orientation.side_left, Alili.Orientation.side_right] (by decide)
  simp only [Bool.not_eq_true] at h ⊢
  by_contra hc
  simp only [Bool.not_eq_false] at hc
  have := h.mp hc
  simp at this

/-- C10: on `[0,1]` (indeed everywhere), the inline `getScoreLabel` of
`App.tsx`, `SessionComplete.tsx`'s `getScoreLabelForDisplay`, and
`scoreClassification.getScoreLabel` applied to `Math.round(s*5)` return the
same label/class pair: the two score-classification paths are equivalent. -/
theorem scoreLabel_paths_equivalent (s : ℚ) (h0 : 0 ≤ s) (h1 : s ≤ 1) :
    Alili.appGetScoreLabel s = Alili.getScoreLabelForDisplay s ∧
    Alili.getScoreLabelForDisplay s = Alili.getScoreLabel (Alili.jsRound (s * 5)) := by
  refine ⟨?_, rfl⟩
  unfold Alili.appGetScoreLabel Alili.getScoreLabelForDisplay Alili.getScoreLabel
  rfl

/-- Witness for C10 at `s = 7/10`: both paths classify it as `Good`. -/
theorem scoreLabel_paths_equivalent_witness :
    Alili.appGetScoreLabel (7 / 10) = Alili.getScoreLabelForDisplay (7 / 10) ∧
    Alili.getScoreLabelForDisplay (7 / 10) =
      Alili.getScoreLabel (Alili.jsRound (7 / 10 * 5)) :=
  scoreLabel_paths_equivalent (7 / 10) (by norm_num) (by norm_num)

/-- C4: the numeric accuracy is computed (as `Math.round(confidence*5)`)
exactly when a result is present with a non-`null` confidence; with a
`null` confidence, or no result, the accuracy handed to `PoseFeedback` is
`null`, the mobile status bar shows `DETECTING...`, and the desktop score
badge is not rendered. -/
theorem accuracy_null_handling (r : Option Alili.PoseResult) :
    (∀ res c, r = some res → res.confidence = some c →
      Alili.computeAccuracy r = some (Alili.jsRound (c * 5))) ∧
    (∀ res, r = some res → res.confidence = none →
      Alili.computeAccuracy r = none ∧
      Alili.mobileStatusText (Alili.computeAccuracy r) = "DETECTING..." ∧
      Alili.scoreBadgeRendered (Alili.computeAccuracy r) = false) ∧
    (r = none →
      Alili.computeAccuracy r = none ∧
      Alili.mobileStatusText (Alili.computeAccuracy r) = "DETECTING..." ∧
      Alili.scoreBadgeRendered (Alili.computeAccuracy r) = false) := by
  refine ⟨?_, ?_, ?_⟩
  · intro res c hr hc
    subst hr
    simp [Alili.computeAccuracy, hc]
  · intro res hr hc
    subst hr
    simp [Alili.computeAccuracy, hc, Alili.mobileStatusText, Alili.scoreBadgeRendered]
  · intro hr
    subst hr
    simp [Alili.computeAccuracy, Alili.mobileStatusText, Alili.scoreBadgeRendered]

/-- Witness for C4: a result with `null` confidence renders as
`DETECTING...` with no badge, while a confidence of `3/5` yields the
accuracy score `3`. -/
theorem accuracy_null_handling_witness :
    (Alili.computeAccuracy (some ⟨none, []⟩) = none ∧
      Alili.mobileStatusText (Alili.computeAccuracy (some ⟨none, []⟩)) = "DETECTING..." ∧
      Alili.scoreBadgeRendered (Alili.computeAccuracy (some ⟨none, []⟩)) = false) ∧
    Alili.computeAccuracy (some ⟨some (3 / 5), []⟩) = some (Alili.jsRound (3 / 5 * 5)) :=
  ⟨(accuracy_null_handling (some ⟨none, []⟩)).2.1 ⟨none, []⟩ rfl rfl,
   (accuracy_null_handling (some ⟨some (3 / 5), []⟩)).1 ⟨some (3 / 5), []⟩ (3 / 5) rfl rfl⟩

/-- C7: whenever the planner preview reports `estimated_poses > 0`, the
per-pose average `Math.floor(durationMinutes * 60 / estimated_poses)` shown
by `SessionConfig.tsx` is a well-defined finite integer: the division's
divisor is non-zero and the embedding produces a value. -/
theorem perPoseAvg_defined (durationMinutes estimatedPoses : ℕ)
    (h : 0 < estimatedPoses) :
    Alili.perPoseAvg durationMinutes estimatedPoses =
      some ⌊(durationMinutes * 60 : ℚ) / estimatedPoses⌋ := by
  simp [Alili.perPoseAvg, Nat.pos_iff_ne_zero.mp h]

/-- Witness for C7: a 20-minute session previewed at 8 poses averages 150
seconds per pose. -/
theorem perPoseAvg_defined_witness :
    Alili.perPoseAvg 20 8 = some ⌊(20 * 60 : ℚ) / 8⌋ :=
  perPoseAvg_defined 20 8 (by norm_num)

/-- A single `togglePain` click keeps the two selection sets disjoint. -/
lemma togglePain_disjoint (p : String) (s : Alili.SelectorState)
    (h : Disjoint s.painAreas s.improvementAreas) :
    Disjoint (Alili.togglePain p s).painAreas (Alili.togglePain p s).improvementAreas := by
  unfold Alili.togglePain
  split
  · exact Finset.disjoint_of_subset_left (Finset.erase_subset p s.painAreas) h
  · simp only
    rw [Finset.disjoint_insert_left]
    exact ⟨Finset.not_mem_erase p s.improvementAreas,
      Finset.disjoint_of_subset_right (Finset.erase_subset p s.improvementAreas) h⟩

/-- A single `toggleImprovement` click keeps the two selection sets
disjoint. -/
lemma toggleImprovement_disjoint (p : String) (s : Alili.SelectorState)
    (h : Disjoint s.painAreas s.improvementAreas) :
    Disjoint (Alili.toggleImprovement p s).painAreas
      (Alili.toggleImprovement p s).improvementAreas := by
  unfold Alili.toggleImprovement
  split
  · exact Finset.disjoint_of_subset_right (Finset.erase_subset p s.improvementAreas) h
  · simp only
    rw [Finset.disjoint_insert_right]
    exact ⟨Finset.not_mem_erase p s.painAreas,
      Finset.disjoint_of_subset_left (Finset.erase_subset p s.painAreas) h⟩

/-- Any click sequence preserves disjointness of the selection sets. -/
lemma applySelectorOps_disjoint (ops : List Alili.SelectorOp) (s : Alili.SelectorState)
    (h : Disjoint s.painAreas s.improvementAreas) :
    Disjoint (Alili.applySelectorOps ops s).painAreas
      (Alili.applySelectorOps ops s).improvementAreas := by
  induction ops generalizing s with
  | nil => exact h
  | cons op ops ih =>
    cases op with
    | pain p => exact ih _ (togglePain_disjoint p s h)
    | improvement p => exact ih _ (toggleImprovement_disjoint p s h)

/-- C8: starting from empty selections, after every sequence of
`togglePain` / `toggleImprovement` clicks the pain-area set and the
improvement-area set are disjoint — no body part is ever simultaneously a
pain area and an improvement area. -/
theorem selector_sets_disjoint (ops : List Alili.SelectorOp) :
    Disjoint (Alili.applySelectorOps ops Alili.initialSelector).painAreas
      (Alili.applySelectorOps ops Alili.initialSelector).improvementAreas :=
  applySelectorOps_disjoint ops Alili.initialSelector (by
    simp [Alili.initialSelector])

/-- C9: `savePoseScore` appends a record whose `averageScore` is the
arithmetic mean of the accumulated confidence samples and whose `scores`
field is that sample list, exactly when at least one sample was
accumulated; with no samples the stored list is returned unchanged. -/
theorem savePoseScore_spec (poseName : String) (currentScores : List ℚ)
    (poseScores : List Alili.PoseScoreRecord) :
    (currentScores ≠ [] →
      Alili.savePoseScore poseName currentScores poseScores =
        poseScores ++
          [{ poseName := poseName,
             scores := currentScores,
             averageScore := currentScores.sum / currentScores.length }]) ∧
    (currentScores = [] →
      Alili.savePoseScore poseName currentScores poseScores = poseScores) := by
  constructor
  · intro h
    simp [Alili.savePoseScore, List.length_pos.mpr h]
  · intro h
    subst h
    simp [Alili.savePoseScore]

/-- Witness for C9: two samples `[1/2, 1]` for `Plank` append a record
averaging `3/4`, and an empty sample list leaves the store unchanged. -/
theorem savePoseScore_spec_witness :
    Alili.savePoseScore "Plank" [1 / 2, 1] [] =
      [{ poseName := "Plank",
         scores := [1 / 2, 1],
         averageScore := ([1 / 2, 1] : List ℚ).sum / ([1 / 2, 1] : List ℚ).length }] ∧
    Alili.savePoseScore "Plank" [] [] = [] :=
  ⟨(savePoseScore_spec "Plank" [1 / 2, 1] []).1 (by simp),
   (savePoseScore_spec "Plank" [] []).2 rfl⟩

/-- C5: the overlay never dereferences an out-of-range landmark index —
every connection whose start or end index reaches past the landmark list
is skipped — and a segment or point is drawn only when each involved
landmark's visibility exceeds `0.5`. -/
theorem overlay_bounds_and_visibility (landmarks : List Alili.Landmark) :
    (∀ c, c.1 ≥ landmarks.length ∨ c.2 ≥ landmarks.length →
      Alili.drawConnection landmarks c = none) ∧
    (∀ seg ∈ Alili.drawnConnections landmarks,
      seg.1.visibility > 1 / 2 ∧ seg.2.visibility > 1 / 2) ∧
    (∀ p ∈ Alili.drawnPoints landmarks, p.visibility > 1 / 2) := by
  refine ⟨?_, ?_, ?_⟩
  · intro c hc
    simp only [Alili.drawConnection, if_pos hc]
  · intro seg hseg
    rcases List.mem_filterMap.mp hseg with ⟨c, _, hdraw⟩
    unfold Alili.drawConnection at hdraw
    split at hdraw
    · exact absurd hdraw (by simp)
    · split at hdraw
      · split at hdraw
        · cases hdraw
          assumption
        · exact absurd hdraw (by simp)
      · exact absurd hdraw (by simp)
  · intro p hp
    exact of_decide_eq_true (List.mem_filter.mp hp).2

/-- Witness for C5: on a single-landmark list, the face connection `(0,1)`
is skipped because index `1` is out of range. -/
theorem overlay_bounds_and_visibility_witness :
    Alili.drawConnection [{ x := 0, y := 0, z := 0, visibility := 1 }] (0, 1) = none :=
  (overlay_bounds_and_visibility [{ x := 0, y := 0, z := 0, visibility := 1 }]).1
    (0, 1) (Or.inr (by simp))

/-- Unfolding equation for `voiceTrace` on a non-empty input run. -/
lemma voiceTrace_cons (e s : Bool) (r : Option Alili.PoseResult)
    (rs : List (Option Alili.PoseResult)) (last : String) :
    Alili.voiceTrace e s (r :: rs) last =
      match Alili.voiceStep e s r last with
      | (some f, l) => f :: Alili.voiceTrace e s rs l
      | (none, l) => Alili.voiceTrace e s rs l := rfl

/-- When the voice-feedback effect speaks nothing, the last-spoken ref is
unchanged. -/
lemma voiceStep_silent_state (e s : Bool) (r : Option Alili.PoseResult) (last : String)
    (h : (Alili.voiceStep e s r last).1 = none) :
    (Alili.voiceStep e s r last).2 = last := by
  by_cases he : (!e || !s) = true
  · simp [Alili.voiceStep, he]
  · cases r with
    | none => simp [Alili.voiceStep, he]
    | some res =>
      by_cases hfb : res.feedback.length = 0
      · simp [Alili.voiceStep, he, hfb]
      · by_cases hconf : res.confidence.getD 0 ≥ 7 / 10
        · simp [Alili.voiceStep, he, hfb, hconf]
        · rcases hhead : res.feedback.head? with _ | g
          · simp [Alili.voiceStep, he, hfb, hconf, hhead]
          · by_cases hcond : g ≠ "" ∧ g ≠ last
            · simp [Alili.voiceStep, he, hfb, hconf, hhead, hcond] at h
            · simp [Alili.voiceStep, he, hfb, hconf, hhead, hcond]

/-- When the voice-feedback effect speaks `f`, the run was fully enabled,
the result had a non-empty feedback list with head `f`, its (null-coerced)
confidence was below `0.7`, `f` differs from the previously spoken text,
and the ref is updated to `f`. -/
lemma voiceStep_spoken_spec (e s : Bool) (r : Option Alili.PoseResult) (last f : String)
    (h : (Alili.voiceStep e s r last).1 = some f) :
    (Alili.voiceStep e s r last).2 = f ∧ f ≠ last ∧ e = true ∧ s = true ∧
    ∃ res, r = some res ∧ res.feedback ≠ [] ∧
      res.confidence.getD 0 < 7 / 10 ∧ res.feedback.head? = some f := by
  by_cases he : (!e || !s) = true
  · simp [Alili.voiceStep, he] at h
  · have hes : e = true ∧ s = true := by
      constructor <;>
        (by_contra hc
         simp only [Bool.not_eq_true] at hc
         simp [hc] at he)
    cases r with
    | none => simp [Alili.voiceStep, he] at h
    | some res =>
      by_cases hfb : res.feedback.length = 0
      · simp [Alili.voiceStep, he, hfb] at h
      · by_cases hconf : res.confidence.getD 0 ≥ 7 / 10
        · simp [Alili.voiceStep, he, hfb, hconf] at h
        · rcases hhead : res.feedback.head? with _ | g
          · simp [Alili.voiceStep, he, hfb, hconf, hhead] at h
          · by_cases hcond : g ≠ "" ∧ g ≠ last
            · have hg : g = f := by
                simpa [Alili.voiceStep, he, hfb, hconf, hhead, hcond] using h
              subst hg
              refine ⟨?_, hcond.2, hes.1, hes.2, res, rfl, ?_,
                lt_of_not_ge hconf, hhead⟩
              · simp [Alili.voiceStep, he, hfb, hconf, hhead, hcond]
              · intro hnil
                rw [hnil] at hfb
                exact hfb rfl
            · simp [Alili.voiceStep, he, hfb, hconf, hhead, hcond] at h

/-- Over any run, the spoken feedback texts never repeat back-to-back, and
the first spoken text differs from the initial ref value. -/
lemma voiceTrace_no_repeat (e s : Bool) (inputs : List (Option Alili.PoseResult)) :
    ∀ last, List.Chain' Ne (Alili.voiceTrace e s inputs last) ∧
      ∀ f, (Alili.voiceTrace e s inputs last).head? = some f → f ≠ last := by
  induction inputs with
  | nil =>
    intro last
    constructor
    · simp [Alili.voiceTrace]
    · intro f hf
      simp [Alili.voiceTrace] at hf
  | cons r rs ih =>
    intro last
    rcases hstep : Alili.voiceStep e s r last with ⟨spoken, newLast⟩
    cases spoken with
    | none =>
      have hl : newLast = last := by
        have := voiceStep_silent_state e s r last (by rw [hstep])
        rw [hstep] at this
        exact this
      have htr : Alili.voiceTrace e s (r :: rs) last =
          Alili.voiceTrace e s rs last := by
        rw [voiceTrace_cons, hstep, hl]
      rw [htr]
      exact ih last
    | some f =>
      have hspec := voiceStep_spoken_spec e s r last f (by rw [hstep])
      rw [hstep] at hspec
      have hl : newLast = f := hspec.1
      have htr : Alili.voiceTrace e s (r :: rs) last =
          f :: Alili.voiceTrace e s rs f := by
        rw [voiceTrace_cons, hstep, hl]
      rw [htr]
      constructor
      · refine List.chain'_cons'.mpr ⟨?_, (ih f).1⟩
        intro g hg
        exact Ne.symm ((ih f).2 g hg)
      · intro g hg
        simp only [List.head?_cons, Option.some.injEq] at hg
        rw [← hg]
        exact hspec.2.1

/-- C6: voice feedback is never spoken for a result whose confidence is at
least `0.7`; a feedback line is spoken only when voice is enabled, speech
is supported, the result's feedback list is non-empty, and the
(null-coerced) confidence is below `0.7`; and the spoken texts of any run
never repeat the same text twice in a row. -/
theorem voice_feedback_spec (e s : Bool) (inputs : List (Option Alili.PoseResult)) :
    (∀ r last res c, r = some res → res.confidence = some c → c ≥ 7 / 10 →
      (Alili.voiceStep e s r last).1 = none) ∧
    (∀ r last f, (Alili.voiceStep e s r last).1 = some f →
      e = true ∧ s = true ∧
      ∃ res, r = some res ∧ res.feedback ≠ [] ∧
        res.confidence.getD 0 < 7 / 10 ∧ res.feedback.head? = some f ∧ f ≠ last) ∧
    List.Chain' Ne (Alili.voiceTrace e s inputs "") := by
  refine ⟨?_, ?_, (voiceTrace_no_repeat e s inputs "").1⟩
  · intro r last res c hr hc hge
    subst hr
    unfold Alili.voiceStep
    split
    · rfl
    · simp only
      split
      · rfl
      · rw [hc]
        simp only [Option.getD_some]
        rw [if_pos hge]
  · intro r last f h
    have hspec := voiceStep_spoken_spec e s r last f h
    rcases hspec.2.2.2.2 with ⟨res, hr, hfb, hconf, hhead⟩
    exact ⟨hspec.2.2.1, hspec.2.2.2.1, res, hr, hfb, hconf, hhead, hspec.2.1⟩

/-- Witness for C6: with voice enabled, a high-confidence (`0.9`) result
with pending feedback is not spoken. -/
theorem voice_feedback_spec_witness :
    (Alili.voiceStep true true
      (some { confidence := some (9 / 10), feedback := ["Straighten your left knee"] })
      "").1 = none :=
  (voice_feedback_spec true true []).1
    (some { confidence := some (9 / 10), feedback := ["Straighten your left knee"] })
    "" { confidence := some (9 / 10), feedback := ["Straighten your left knee"] }
    (9 / 10) rfl rfl (by norm_num)

/-- Duration allocation hands out exactly the requested total: the last
pose absorbs the rounding drift. -/
lemma allocateDurations_sum (defaults : List ℕ) (totalSec : ℤ)
    (h : defaults ≠ []) :
    (Alili.allocateDurations defaults totalSec).sum = totalSec := by
  cases defaults with
  | nil => exact absurd rfl h
  | cons d ds =>
    simp only [Alili.allocateDurations, List.sum_append, List.sum_cons, List.sum_nil]
    ring

/-- Duration allocation produces one duration per pose. -/
lemma allocateDurations_length (defaults : List ℕ) (totalSec : ℤ) :
    (Alili.allocateDurations defaults totalSec).length = defaults.length := by
  cases defaults with
  | nil => rfl
  | cons d ds =>
    simp only [Alili.allocateDurations, Alili.scaledDurations, List.length_append,
      List.length_dropLast, List.length_map, List.length_cons, List.length_nil]
    omega

/-- The candidate set only contains catalog poses. -/
lemma candidateSet_subset (catalog : List Alili.PoseDefinition)
    (painAreas improvementAreas : List String) :
    Alili.candidateSet catalog painAreas improvementAreas ⊆ catalog := by
  unfold Alili.candidateSet
  split
  · exact fun _ hx => hx
  · exact List.filter_subset' _

/-- Pair expansion of a non-empty candidate subset is non-empty. -/
lemma expandPairs_ne_nil (catalog cand : List Alili.PoseDefinition)
    (hsub : cand ⊆ catalog) (h : cand ≠ []) :
    Alili.expandPairs catalog cand ≠ [] := by
  obtain ⟨x, hx⟩ := List.exists_mem_of_ne_nil cand h
  intro hnil
  have hxfil : x ∈ Alili.expandPairs catalog cand := by
    unfold Alili.expandPairs
    exact List.mem_filter.mpr ⟨hsub hx, by simp [hx]⟩
  rw [hnil] at hxfil
  exact (List.not_mem_nil x) hxfil

/-- Reordering by category loses no pose: the result of
`orderByCategory` on a non-empty list is non-empty. -/
lemma orderByCategory_ne_nil (poses : List Alili.PoseDefinition)
    (h : poses ≠ []) : Alili.orderByCategory poses ≠ [] := by
  obtain ⟨x, hx⟩ := List.exists_mem_of_ne_nil poses h
  intro hnil
  unfold Alili.orderByCategory at hnil
  simp only [List.append_eq_nil] at hnil
  obtain ⟨⟨h1, h2⟩, h3⟩ := hnil
  cases hcat : x.category with
  | warmup =>
    have hxf : x ∈ poses.filter (fun p => p.category = Alili.PoseCategory.warmup) :=
      List.mem_filter.mpr ⟨hx, by simp [hcat]⟩
    rw [h1] at hxf
    exact (List.not_mem_nil x) hxf
  | peak =>
    have hxf : x ∈ poses.filter (fun p => p.category = Alili.PoseCategory.peak) :=
      List.mem_filter.mpr ⟨hx, by simp [hcat]⟩
    rw [h2] at hxf
    exact (List.not_mem_nil x) hxf
  | cooldown =>
    have hxf : x ∈ poses.filter (fun p => p.category = Alili.PoseCategory.cooldown) :=
      List.mem_filter.mpr ⟨hx, by simp [hcat]⟩
    rw [h3] at hxf
    exact (List.not_mem_nil x) hxf

/-- With a non-empty catalog the planner never selects an empty pose
list (the step-6 fallback). -/
lemma selectPoses_ne_nil (catalog : List Alili.PoseDefinition)
    (painAreas improvementAreas : List String) (h : catalog ≠ []) :
    Alili.selectPoses catalog painAreas improvementAreas ≠ [] := by
  unfold Alili.selectPoses
  apply orderByCategory_ne_nil
  by_cases hc : (Alili.candidateSet catalog painAreas improvementAreas).isEmpty
  · simp only [hc, if_true]
    exact h
  · simp only [hc, Bool.false_eq_true, if_false]
    apply expandPairs_ne_nil catalog _ (candidateSet_subset catalog painAreas improvementAreas)
    intro hnil
    rw [hnil] at hc
    exact hc rfl

/-- C2: for every session generation request over a non-empty catalog, the
per-pose durations of the generated session sum to exactly
`round(durationMinutes * 60)` seconds. -/
theorem session_durations_sum_exact (catalog : List Alili.PoseDefinition)
    (painAreas improvementAreas : List String) (durationMinutes : ℚ)
    (h : catalog ≠ []) :
    ((Alili.generateSession catalog painAreas improvementAreas durationMinutes).map
      (fun p => p.durationSec)).sum = round (durationMinutes * 60) := by
  have hposes := selectPoses_ne_nil catalog painAreas improvementAreas h
  unfold Alili.generateSession
  rw [List.map_map]
  have hlen :
      (Alili.allocateDurations
        ((Alili.selectPoses catalog painAreas improvementAreas).map
          (fun p => p.defaultDurationSec))
        (round (durationMinutes * 60))).length ≤
      (Alili.selectPoses catalog painAreas improvementAreas).length := by
    rw [allocateDurations_length, List.length_map]
  have hcomp : ((fun p : Alili.SessionPose => p.durationSec) ∘
      Alili.mkSessionPose painAreas improvementAreas) =
      (Prod.snd : Alili.PoseDefinition × ℤ → ℤ) := by
    funext pd
    rfl
  rw [hcomp, List.map_snd_zip _ _ hlen]
  apply allocateDurations_sum
  simp only [ne_eq, List.map_eq_nil_iff]
  exact hposes

/-- Unfolding equation for `angleBetween` when the points are not
degenerate. -/
lemma angleBetween_eq_some (a b c : Alili.Pt) (h : ¬(a = b ∨ c = b)) :
    Alili.angleBetween a b c =
      some (Real.arccos
        (Alili.dot (Alili.vsub a b) (Alili.vsub c b) /
          (Alili.norm2 (Alili.vsub a b) * Alili.norm2 (Alili.vsub c b)))
        * 180 / Real.pi) := by
  unfold Alili.angleBetween
  rw [if_neg h]

/-- Any arc cosine converted to degrees lies in `[0, 180]`. -/
lemma arccos_deg_range (r : ℝ) :
    0 ≤ Real.arccos r * 180 / Real.pi ∧ Real.arccos r * 180 / Real.pi ≤ 180 := by
  constructor
  · exact div_nonneg (mul_nonneg (Real.arccos_nonneg r) (by norm_num)) Real.pi_pos.le
  · rw [div_le_iff Real.pi_pos]
    nlinarith [Real.arccos_le_pi r, Real.pi_pos]

/-- The returned angle of `angleBetween` lies in `[0, 180]` degrees. -/
lemma angleBetween_range (a b c : Alili.Pt) (θ : ℝ)
    (h : Alili.angleBetween a b c = some θ) : 0 ≤ θ ∧ θ ≤ 180 := by
  by_cases hg : a = b ∨ c = b
  · unfold Alili.angleBetween at h
    rw [if_pos hg] at h
    exact absurd h (by simp)
  · rw [angleBetween_eq_some a b c hg, Option.some_inj] at h
    rw [← h]
    exact arccos_deg_range _

/-- The norm of a componentwise scaling by a nonnegative factor. -/
lemma norm2_smul (s u1 u2 : ℝ) (hs : 0 ≤ s) :
    Alili.norm2 (s * u1, s * u2) = s * Alili.norm2 (u1, u2) := by
  unfold Alili.norm2
  rw [show (s * u1) ^ 2 + (s * u2) ^ 2 = s ^ 2 * (u1 ^ 2 + u2 ^ 2) by ring,
    Real.sqrt_mul (sq_nonneg s), Real.sqrt_sq hs]

/-- On three colinear points spanning a straight line (the third point on
the opposite side of the vertex from the first), `angleBetween` returns
exactly `180` degrees. -/
lemma angleBetween_colinear (b : Alili.Pt) (vx vy t : ℝ)
    (hv : ¬(vx = 0 ∧ vy = 0)) (ht : 0 < t) :
    Alili.angleBetween ⟨b.x + vx, b.y + vy⟩ b ⟨b.x - t * vx, b.y - t * vy⟩ =
      some 180 := by
  have hs : 0 < vx ^ 2 + vy ^ 2 := by
    rcases not_and_or.mp hv with h | h
    · have := sq_pos_of_ne_zero h
      nlinarith [sq_nonneg vy]
    · have := sq_pos_of_ne_zero h
      nlinarith [sq_nonneg vx]
  have hguard : ¬((⟨b.x + vx, b.y + vy⟩ : Alili.Pt) = b ∨
      (⟨b.x - t * vx, b.y - t * vy⟩ : Alili.Pt) = b) := by
    rintro (h | h)
    · rw [Alili.Pt.ext_iff] at h
      simp only at h
      exact hv ⟨by linarith [h.1], by linarith [h.2]⟩
    · rw [Alili.Pt.ext_iff] at h
      simp only at h
      have h1 : t * vx = 0 := by linarith [h.1]
      have h2 : t * vy = 0 := by linarith [h.2]
      have hvx : vx = 0 := by
        rcases mul_eq_zero.mp h1 with h' | h'
        · exact absurd h' (ne_of_gt ht)
        · exact h'
      have hvy : vy = 0 := by
        rcases mul_eq_zero.mp h2 with h' | h'
        · exact absurd h' (ne_of_gt ht)
        · exact h'
      exact hv ⟨hvx, hvy⟩
  rw [angleBetween_eq_some _ _ _ hguard]
  have hvsub1 : Alili.vsub ⟨b.x + vx, b.y + vy⟩ b = (vx, vy) := by
    unfold Alili.vsub
    simp only [Prod.mk.injEq]
    constructor <;> ring
  have hvsub2 : Alili.vsub ⟨b.x - t * vx, b.y - t * vy⟩ b = (-(t * vx), -(t * vy)) := by
    unfold Alili.vsub
    simp only [Prod.mk.injEq]
    constructor <;> ring
  rw [hvsub1, hvsub2]
  have hdot : Alili.dot (vx, vy) (-(t * vx), -(t * vy)) = -(t * (vx ^ 2 + vy ^ 2)) := by
    unfold Alili.dot
    ring
  have hn2 : Alili.norm2 (-(t * vx), -(t * vy)) = t * Alili.norm2 (vx, vy) := by
    rw [show ((-(t * vx), -(t * vy)) : ℝ × ℝ) = (t * -vx, t * -vy) by
        simp only [Prod.mk.injEq]
        constructor <;> ring,
      norm2_smul t (-vx) (-vy) ht.le]
    congr 1
    unfold Alili.norm2
    rw [show (-vx) ^ 2 + (-vy) ^ 2 = vx ^ 2 + vy ^ 2 by ring]
  have hnpos : 0 < Alili.norm2 (vx, vy) := Real.sqrt_pos.mpr hs
  have hnsq : Alili.norm2 (vx, vy) * Alili.norm2 (vx, vy) = vx ^ 2 + vy ^ 2 :=
    Real.mul_self_sqrt hs.le
  rw [hdot, hn2]
  rw [show Alili.norm2 (vx, vy) * (t * Alili.norm2 (vx, vy)) =
      t * (Alili.norm2 (vx, vy) * Alili.norm2 (vx, vy)) by ring, hnsq]
  rw [neg_div, div_self (ne_of_gt (mul_pos ht hs)), Real.arccos_neg_one]
  rw [mul_comm, mul_div_assoc, div_self Real.pi_ne_zero, mul_one]

/-- On a perfect right angle (orthogonal, non-degenerate rays),
`angleBetween` returns exactly `90` degrees. -/
lemma angleBetween_right_angle (a b c : Alili.Pt) (ha : a ≠ b) (hc : c ≠ b)
    (hdot : Alili.dot (Alili.vsub a b) (Alili.vsub c b) = 0) :
    Alili.angleBetween a b c = some 90 := by
  rw [angleBetween_eq_some a b c (by
    rintro (h | h)
    · exact ha h
    · exact hc h)]
  rw [hdot, zero_div, Real.arccos_zero]
  congr 1
  field_simp
  ring

/-- Uniform scaling with a non-zero factor is injective on points. -/
lemma scalePt_inj (s : ℝ) (hs : s ≠ 0) (p q : Alili.Pt) :
    Alili.scalePt s p = Alili.scalePt s q ↔ p = q := by
  rw [Alili.Pt.ext_iff, Alili.Pt.ext_iff]
  unfold Alili.scalePt
  simp only
  constructor
  · rintro ⟨h1, h2⟩
    exact ⟨mul_left_cancel₀ hs h1, mul_left_cancel₀ hs h2⟩
  · rintro ⟨h1, h2⟩
    exact ⟨by rw [h1], by rw [h2]⟩

/-- Difference vectors scale componentwise under uniform scaling. -/
lemma vsub_scale (s : ℝ) (p q : Alili.Pt) :
    Alili.vsub (Alili.scalePt s p) (Alili.scalePt s q) =
      (s * (Alili.vsub p q).1, s * (Alili.vsub p q).2) := by
  unfold Alili.vsub Alili.scalePt
  simp only [Prod.mk.injEq]
  constructor <;> ring

/-- The angle of `angleBetween` is invariant under uniform scaling of all three points
by a positive factor. -/
lemma angleBetween_scale_invariant (a b c : Alili.Pt) (s : ℝ) (hs : 0 < s) :
    Alili.angleBetween (Alili.scalePt s a) (Alili.scalePt s b) (Alili.scalePt s c) =
      Alili.angleBetween a b c := by
  by_cases hg : a = b ∨ c = b
  · have hg' : Alili.scalePt s a = Alili.scalePt s b ∨
        Alili.scalePt s c = Alili.scalePt s b := by
      rcases hg with h | h
      · exact Or.inl (by rw [h])
      · exact Or.inr (by rw [h])
    unfold Alili.angleBetween
    rw [if_pos hg, if_pos hg']
  · have hg' : ¬(Alili.scalePt s a = Alili.scalePt s b ∨
        Alili.scalePt s c = Alili.scalePt s b) := by
      rintro (h | h)
      · exact hg (Or.inl ((scalePt_inj s (ne_of_gt hs) a b).mp h))
      · exact hg (Or.inr ((scalePt_inj s (ne_of_gt hs) c b).mp h))
    rw [angleBetween_eq_some _ _ _ hg', angleBetween_eq_some _ _ _ hg]
    congr 1
    rw [vsub_scale, vsub_scale]
    obtain ⟨u1, u2⟩ := Alili.vsub a b
    obtain ⟨w1, w2⟩ := Alili.vsub c b
    have hd : Alili.dot (s * u1, s * u2) (s * w1, s * w2) =
        s ^ 2 * Alili.dot (u1, u2) (w1, w2) := by
      unfold Alili.dot
      ring
    rw [hd, norm2_smul s u1 u2 hs.le, norm2_smul s w1 w2 hs.le]
    rw [show s * Alili.norm2 (u1, u2) * (s * Alili.norm2 (w1, w2)) =
        s ^ 2 * (Alili.norm2 (u1, u2) * Alili.norm2 (w1, w2)) by ring]
    rw [mul_div_mul_left _ _ (pow_ne_zero 2 (ne_of_gt hs))]

/-- Translation is injective on points. -/
lemma translatePt_inj (d p q : Alili.Pt) :
    Alili.translatePt d p = Alili.translatePt d q ↔ p = q := by
  rw [Alili.Pt.ext_iff, Alili.Pt.ext_iff]
  unfold Alili.translatePt
  simp only
  constructor
  · rintro ⟨h1, h2⟩
    exact ⟨by linarith, by linarith⟩
  · rintro ⟨h1, h2⟩
    exact ⟨by rw [h1], by rw [h2]⟩

/-- Difference vectors are unchanged by translation. -/
lemma vsub_translate (d p q : Alili.Pt) :
    Alili.vsub (Alili.translatePt d p) (Alili.translatePt d q) = Alili.vsub p q := by
  unfold Alili.vsub Alili.translatePt
  simp only [Prod.mk.injEq]
  constructor <;> ring

/-- The angle of `angleBetween` is invariant under translation of all three points. -/
lemma angleBetween_translate_invariant (a b c d : Alili.Pt) :
    Alili.angleBetween (Alili.translatePt d a) (Alili.translatePt d b)
      (Alili.translatePt d c) = Alili.angleBetween a b c := by
  by_cases hg : a = b ∨ c = b
  · have hg' : Alili.translatePt d a = Alili.translatePt d b ∨
        Alili.translatePt d c = Alili.translatePt d b := by
      rcases hg with h | h
      · exact Or.inl (by rw [h])
      · exact Or.inr (by rw [h])
    unfold Alili.angleBetween
    rw [if_pos hg, if_pos hg']
  · have hg' : ¬(Alili.translatePt d a = Alili.translatePt d b ∨
        Alili.translatePt d c = Alili.translatePt d b) := by
      rintro (h | h)
      · exact hg (Or.inl ((translatePt_inj d a b).mp h))
      · exact hg (Or.inr ((translatePt_inj d c b).mp h))
    rw [angleBetween_eq_some _ _ _ hg', angleBetween_eq_some _ _ _ hg,
      vsub_translate, vsub_translate]

/-- C3: `angleBetween` returns a degree value in `[0, 180]`; on three
colinear points spanning a straight line it returns `180`; on a perfect
right angle it returns `90`; and its result is invariant under uniform
scaling and under translation of all three points. -/
theorem angleBetween_spec :
    (∀ a b c (θ : ℝ), Alili.angleBetween a b c = some θ → 0 ≤ θ ∧ θ ≤ 180) ∧
    (∀ (b : Alili.Pt) (vx vy t : ℝ), ¬(vx = 0 ∧ vy = 0) → 0 < t →
      Alili.angleBetween ⟨b.x + vx, b.y + vy⟩ b ⟨b.x - t * vx, b.y - t * vy⟩ =
        some 180) ∧
    (∀ a b c, a ≠ b → c ≠ b →
      Alili.dot (Alili.vsub a b) (Alili.vsub c b) = 0 →
      Alili.angleBetween a b c = some 90) ∧
    (∀ a b c (s : ℝ), 0 < s →
      Alili.angleBetween (Alili.scalePt s a) (Alili.scalePt s b)
        (Alili.scalePt s c) = Alili.angleBetween a b c) ∧
    (∀ a b c d,
      Alili.angleBetween (Alili.translatePt d a) (Alili.translatePt d b)
        (Alili.translatePt d c) = Alili.angleBetween a b c) :=
  ⟨angleBetween_range, angleBetween_colinear, angleBetween_right_angle,
   angleBetween_scale_invariant, angleBetween_translate_invariant⟩

/-- Witness for C3: the unit right angle at the origin measures `90`
degrees, and doubling all three points leaves the angle unchanged. -/
theorem angleBetween_spec_witness :
    Alili.angleBetween ⟨1, 0⟩ ⟨0, 0⟩ ⟨0, 1⟩ = some 90 ∧
    Alili.angleBetween (Alili.scalePt 2 ⟨1, 0⟩) (Alili.scalePt 2 ⟨0, 0⟩)
      (Alili.scalePt 2 ⟨0, 1⟩) = Alili.angleBetween ⟨1, 0⟩ ⟨0, 0⟩ ⟨0, 1⟩ :=
  ⟨angleBetween_spec.2.2.1 ⟨1, 0⟩ ⟨0, 0⟩ ⟨0, 1⟩
      (by simp [Alili.Pt.ext_iff])
      (by simp [Alili.Pt.ext_iff])
      (by norm_num [Alili.dot, Alili.vsub]),
   angleBetween_spec.2.2.2.1 ⟨1, 0⟩ ⟨0, 0⟩ ⟨0, 1⟩ 2 (by norm_num)⟩

/-- Witness for C2: a two-pose catalog and a 20-minute request allocate
durations summing to exactly 1200 seconds. -/
theorem session_durations_sum_exact_witness :
    ((Alili.generateSession
      [ { name := "Mountain Pose", category := Alili.PoseCategory.warmup,
          defaultDurationSec := 30, targetBodyParts := ["back"],
          asymmetricPairKey := none },
        { name := "Plank", category := Alili.PoseCategory.peak,
          defaultDurationSec := 60, targetBodyParts := ["core"],
          asymmetricPairKey := none } ]
      ["back"] [] 20).map (fun p => p.durationSec)).sum = round ((20 : ℚ) * 60) :=
  session_durations_sum_exact _ ["back"] [] 20 (by simp)
